import Mathlib

/-!
Formal model of the openCL-primes repository (src/main.rs).

The repository is a single Rust program that compiles an OpenCL kernel
(`KERNEL_SRC`, containing the trial-division test `is_prime` and the single
kernel entry point `search_for_large_prime`), launches it once per device, and
then supervises the devices from one host thread per device: each monitor
thread polls the device's status and result buffers, a shared
`prime_found : Mutex<bool>` flag coordinates termination, and NVML telemetry
is sampled every 10 polling ticks.

This file embeds the kernel arithmetic as executable functions on `Nat` and
the host-side monitor protocol as an interleaved small-step transition system,
and proves the claims of the specification against them.
-/

namespace OCLPrimes

/-- Embedding of the loop of `is_prime` in `KERNEL_SRC`:
`for (ulong i = 5; i * i <= n; i += 6) if (n % i == 0 || n % (i+2) == 0) return 0;`
followed by `return 1`.  `fuel` bounds the number of iterations; the loop
advances `i` by 6 each time, so any `fuel` with `n < i + 6 * fuel` is enough
for the embedding to agree with the unbounded C loop. -/
def is_prime_loop : Nat → Nat → Nat → Nat
  | 0, _, _ => 1
  | fuel+1, i, n =>
    if i * i ≤ n then
      if n % i = 0 ∨ n % (i + 2) = 0 then 0
      else is_prime_loop fuel (i + 6) n
    else 1

/-- Embedding of `is_prime` in `KERNEL_SRC`: `n <= 1` fails, `n <= 3` passes,
even numbers and multiples of 3 fail, otherwise trial division by `6k ± 1`. -/
def is_prime (n : Nat) : Nat :=
  if n ≤ 1 then 0
  else if n ≤ 3 then 1
  else if n % 2 = 0 ∨ n % 3 = 0 then 0
  else is_prime_loop n 5 n

/-- Embedding of the body of one lane of `search_for_large_prime`:
`for (ulong i = start + tid; i <= end; i += step) \x7b status[tid] = i;
if (is_prime(i)) \x7b result[0] = i; return; \x7d \x7d`.
Returns the sequence of values the lane writes to its status slot, in order,
and the value it writes to `result[0]` if it finds one.  `fuel` bounds the
iteration count; `i` advances by at least 1 per iteration when `step ≥ 1`,
so fuel `e + 1` is enough. -/
def laneLoop : Nat → Nat → Nat → Nat → List Nat × Option Nat
  | 0, _, _, _ => ([], none)
  | fuel+1, i, e, step =>
    if i ≤ e then
      if is_prime i = 1 then ([i], some i)
      else
        let rest := laneLoop fuel (i + step) e step
        (i :: rest.1, rest.2)
    else ([], none)

/-- One lane of `search_for_large_prime` on the range `[s, e]`:
`tid = get_global_id(0)`, `step = get_global_size(0) = lanes`, starting at
`i = s + tid`. -/
def kernelLane (s e lanes tid : Nat) : List Nat × Option Nat :=
  laneLoop (e + 1) (s + tid) e lanes

/-- The kernel entry points of `KERNEL_SRC`: the source declares exactly one
`__kernel` function, the range-scan entry point `search_for_large_prime`
(`is_prime` is a plain device function, not an entry point). -/
def kernelEntryPoints : List String := ["search_for_large_prime"]

/-!
Host-side model: the per-device monitor threads of `main` (src/main.rs,
lines 128-181), the shared `prime_found` flag (line 117, written at
line 153), reading under the mutex at line 134, the join loop (lines
184-186) and the final summary (lines 188-190).

Each monitor thread repeats: lock and read `prime_found`, break if true;
read the status buffer (`Err` logs and breaks); read the result buffer
(`Err` logs and breaks); if `result[0] != 0` print the result report,
set `prime_found := true` and break; else, when `elapsed_time % 10 == 0`,
query NVML telemetry through `.expect(..)` (a failure panics the thread);
sleep and increment `elapsed_time`.

The mutex makes each flag access atomic, but between a monitor's flag
check and its flag write other monitors run freely, so the model splits
one loop iteration into two atomic actions: the flag check and the body.
A schedule (a list of monitor indices) picks which monitor performs its
next pending atomic action.
-/

/-- Outcome of the environment for one polling iteration of one monitor:
result of the status-buffer read (`none` is an `Err`), result of the
result-buffer read of slot 0 (`none` is an `Err`), and whether the NVML
telemetry calls succeed (`false` makes `.expect` panic). -/
structure TickObs where
  statusRead : Option (List Nat)
  resultRead : Option Nat
  telemetryOk : Bool
deriving DecidableEq

/-- An environment assigns to monitor `i` and its iteration counter
`elapsed_time = e` the observations the buffers and NVML yield there. -/
abbrev MonEnv := Nat → Nat → TickObs

/-- Terminal outcome of a monitor thread: result-report break (`found`),
flag-observed break (`stopped`), buffer-read-error break (`errored`), or
an `.expect` panic during telemetry (`panicked`). -/
inductive Outcome
  | found (v : Nat)
  | stopped
  | errored
  | panicked
deriving DecidableEq

/-- State of one monitor thread: still looping (with `checked = true` after
it has passed the flag check of the current iteration and before it has run
the body; `elapsed` is `elapsed_time`), or exited with a terminal outcome. -/
inductive MonState
  | running (checked : Bool) (elapsed : Nat)
  | exited (o : Outcome)
deriving DecidableEq

/-- Global state: the shared `prime_found` flag, the monitor thread states
in device order, the result reports printed so far (`Prime found by GPU i: v`
as the pair `(i, v)`, in print order), and the read-error log (device
indices that printed a failed-read message, in print order). -/
structure GState where
  flag : Bool
  mons : List MonState
  reports : List (Nat × Nat)
  errlog : List Nat
deriving DecidableEq

/-- Result of the body of one polling iteration: the monitor's next state,
whether it wrote `prime_found := true`, the result report it printed, and
whether it logged a buffer-read failure. -/
structure BodyOut where
  state : MonState
  setFlag : Bool
  report : Option (Nat × Nat)
  logErr : Bool
deriving DecidableEq

/-- Body of one polling iteration of monitor `i` at `elapsed_time = e`
(src/main.rs lines 138-179), after the flag check has passed: the status
read, the result read, the result check, the telemetry block guarded by
`e % 10 == 0`, and the sleep / `elapsed_time += 1` of the continue path. -/
def monBody (obs : TickObs) (i e : Nat) : BodyOut :=
  match obs.statusRead with
  | none => ⟨MonState.exited Outcome.errored, false, none, true⟩
  | some _ =>
    match obs.resultRead with
    | none => ⟨MonState.exited Outcome.errored, false, none, true⟩
    | some v =>
      if v ≠ 0 then
        ⟨MonState.exited (Outcome.found v), true, some (i, v), false⟩
      else if e % 10 = 0 ∧ ¬ obs.telemetryOk then
        ⟨MonState.exited Outcome.panicked, false, none, false⟩
      else
        ⟨MonState.running false (e + 1), false, none, false⟩

/-- One atomic action of monitor `i` in global state `s`: an exited monitor
(or an out-of-range index) does nothing; a monitor at the top of its loop
performs the flag check of line 134 (flag true: break with `stopped`;
flag false: proceed to the body); a monitor past the check runs `monBody`,
which may write the flag (line 153), print a report (line 152) or log a
read error (lines 158, 164). -/
def stepMon (env : MonEnv) (s : GState) (i : Nat) : GState :=
  match s.mons.get? i with
  | none => s
  | some (MonState.exited _) => s
  | some (MonState.running false e) =>
    if s.flag then
      { s with mons := s.mons.set i (MonState.exited Outcome.stopped) }
    else
      { s with mons := s.mons.set i (MonState.running true e) }
  | some (MonState.running true e) =>
    let out := monBody (env i e) i e
    { flag := s.flag || out.setFlag
      mons := s.mons.set i out.state
      reports := s.reports ++ (match out.report with | some r => [r] | none => [])
      errlog := s.errlog ++ (if out.logErr then [i] else []) }

/-- Run a schedule of atomic monitor actions from a global state. -/
def monRun (env : MonEnv) : List Nat → GState → GState
  | [], s => s
  | i :: sched, s => monRun env sched (stepMon env s i)

/-- Initial global state for `n` monitor threads: `prime_found` is created
holding `false` (line 117), every monitor starts at the top of its loop with
`elapsed_time = 0` (line 130), nothing printed yet. -/
def initState (n : Nat) : GState :=
  ⟨false, List.replicate n (MonState.running false 0), [], []⟩

/-- The join loop of `main` (lines 184-186), `for t in threads \x7b
t.join().unwrap(); \x7d`, read off a final global state: `some true` when
the joins panic `main` (the first joined thread in device order that is not
still running had panicked), `some false` when every thread has exited and
none panicked, `none` when `main` blocks forever on the join of a thread
that never exits. -/
def joinLoop : List MonState → Option Bool
  | [] => some false
  | MonState.exited Outcome.panicked :: _ => some true
  | MonState.exited _ :: rest => joinLoop rest
  | MonState.running _ _ :: _ => none

/-- Observable fate of the whole process after the monitors reach a final
state. -/
inductive ProcOutcome
  | panickedJoin
  | finished (summaryNoPrime : Bool)
deriving DecidableEq

/-- Process outcome of `main` at a final global state: `none` when the join
loop blocks forever, `panickedJoin` when `t.join().unwrap()` panics `main`,
and otherwise `finished b` where `b` records whether the summary
`No prime found in the range.` is printed (lines 188-190: printed exactly
when the flag is still false). -/
def processOutcome (s : GState) : Option ProcOutcome :=
  match joinLoop s.mons with
  | none => none
  | some true => some ProcOutcome.panickedJoin
  | some false => some (ProcOutcome.finished (! s.flag))

/-! Environments used by the concrete scenarios. -/

/-- Observations of a device whose kernel has exhausted its range without a
result: status reads succeed, the result slot stays `0`, telemetry works. -/
def noResultObs : TickObs := ⟨some [10], some 0, true⟩

/-- Environment in which every read of every monitor sees `noResultObs`. -/
def noResultEnv : MonEnv := fun _ _ => noResultObs

/-- Environment in which every monitor's result slot already holds the prime
`11` (as the kernel writes on the range `[10, 30]`): status reads succeed
and telemetry works. -/
def bothFindEnv : MonEnv := fun _ _ => ⟨some [], some 11, true⟩

/-- Environment in which every status-buffer read fails with an `Err`. -/
def allErrEnv : MonEnv := fun _ _ => ⟨none, none, true⟩

/-- Environment in which monitor 0's NVML telemetry fails (its first
`.expect` panics) while everything else succeeds and no result appears. -/
def telemFailEnv : MonEnv := fun i _ =>
  if i = 0 then ⟨some [], some 0, false⟩ else ⟨some [], some 0, true⟩

/-- A one-monitor global state in which the monitor has passed the flag
check of its first iteration and is about to run the body. -/
def midBodyState : GState := ⟨false, [MonState.running true 0], [], []⟩

/-- A one-monitor global state in which a sibling has already set the flag
while the monitor sits at the top of its loop. -/
def flagSetState : GState := ⟨true, [MonState.running false 0], [], []⟩

/-! Sanity checks of the monitor model on concrete schedules. -/

example :
    monRun bothFindEnv [0, 1, 0, 1] (initState 2) =
      ⟨true,
       [MonState.exited (Outcome.found 11), MonState.exited (Outcome.found 11)],
       [(0, 11), (1, 11)], []⟩ := by decide

example :
    processOutcome (monRun allErrEnv [0, 1, 0, 1] (initState 2)) =
      some (ProcOutcome.finished true) := by decide

example :
    processOutcome (monRun telemFailEnv [0, 0, 1, 1] (initState 2)) =
      some ProcOutcome.panickedJoin := by decide

example :
    processOutcome (monRun noResultEnv [0, 0, 0, 0, 0, 0] (initState 1)) =
      none := by decide

/-! Basic sanity checks of the kernel embedding on concrete inputs. -/

example : is_prime 11 = 1 := by decide
example : is_prime 10 = 0 := by decide
example : kernelLane 10 30 1 0 = ([10, 11], some 11) := by decide
example : kernelLane 8 10 1 0 = ([8, 9, 10], none) := by decide
example : kernelLane 10 30 2 1 = ([11], some 11) := by decide

/-! Correctness of the kernel's trial-division test. -/

/-- The loop of `is_prime` only returns 0 or 1. -/
lemma is_prime_loop_eq_zero_or_one (fuel i n : Nat) :
    is_prime_loop fuel i n = 0 ∨ is_prime_loop fuel i n = 1 := by
  induction fuel generalizing i with
  | zero => right; rfl
  | succ fuel ih =>
    unfold is_prime_loop
    split
    · split
      · left; rfl
      · exact ih (i + 6)
    · right; rfl

/-- Characterization of the trial-division loop: with enough fuel it returns 0
exactly when some probe `i + 6*k` with square at most `n` divides `n` at the
probe or at the probe plus 2. -/
lemma is_prime_loop_eq_zero_iff (fuel i n : Nat) (hi : 0 < i)
    (hf : n < i + 6 * fuel) :
    is_prime_loop fuel i n = 0 ↔
      ∃ k, (i + 6 * k) * (i + 6 * k) ≤ n ∧
        (n % (i + 6 * k) = 0 ∨ n % (i + 6 * k + 2) = 0) := by
  induction fuel generalizing i with
  | zero =>
    constructor
    · intro h
      simp [is_prime_loop] at h
    · rintro ⟨k, hk1, -⟩
      exfalso
      have h1 : i + 6 * k ≤ (i + 6 * k) * (i + 6 * k) :=
        Nat.le_mul_of_pos_left _ (by omega)
      omega
  | succ fuel ih =>
    unfold is_prime_loop
    by_cases hii : i * i ≤ n
    · by_cases hdiv : n % i = 0 ∨ n % (i + 2) = 0
      · simp only [hii, if_true, hdiv]
        constructor
        · intro _
          exact ⟨0, by simpa using hii, by simpa using hdiv⟩
        · intro _; trivial
      · simp only [hii, if_true, hdiv, if_false]
        rw [ih (i + 6) (by omega) (by omega)]
        constructor
        · rintro ⟨k, hk1, hk2⟩
          refine ⟨k + 1, ?_, ?_⟩
          · have harg : i + 6 * (k + 1) = i + 6 + 6 * k := by ring
            rw [harg]; exact hk1
          · have harg : i + 6 * (k + 1) = i + 6 + 6 * k := by ring
            rw [harg]; exact hk2
        · rintro ⟨k, hk1, hk2⟩
          cases k with
          | zero =>
            exfalso
            apply hdiv
            simpa using hk2
          | succ k =>
            refine ⟨k, ?_, ?_⟩
            · have harg : i + 6 + 6 * k = i + 6 * (k + 1) := by ring
              rw [harg]; exact hk1
            · have harg : i + 6 + 6 * k = i + 6 * (k + 1) := by ring
              rw [harg]; exact hk2
    · simp only [hii, if_false]
      constructor
      · intro h; cases h
      · rintro ⟨k, hk1, -⟩
        exfalso
        have hmono : i * i ≤ (i + 6 * k) * (i + 6 * k) :=
          Nat.mul_le_mul (by omega) (by omega)
        omega

/-- The kernel's `is_prime` agrees with genuine primality: it returns 1
exactly on the prime numbers. -/
lemma is_prime_eq_one_iff (n : Nat) : is_prime n = 1 ↔ Nat.Prime n := by
  unfold is_prime
  by_cases h1 : n ≤ 1
  · simp only [h1, if_true]
    constructor
    · intro h; cases h
    · intro hp
      exact absurd hp.two_le (by omega)
  · by_cases h3 : n ≤ 3
    · simp only [h1, if_false, h3, if_true]
      have : n = 2 ∨ n = 3 := by omega
      rcases this with rfl | rfl
      · simpa using Nat.prime_two
      · simpa using Nat.prime_three
    · by_cases h23 : n % 2 = 0 ∨ n % 3 = 0
      · simp only [h1, if_false, h3, h23, if_true]
        constructor
        · intro h; cases h
        · intro hp
          exfalso
          rcases h23 with h2 | h3'
          · rcases hp.eq_one_or_self_of_dvd 2 (Nat.dvd_of_mod_eq_zero h2) with
              h | h <;> omega
          · rcases hp.eq_one_or_self_of_dvd 3 (Nat.dvd_of_mod_eq_zero h3') with
              h | h <;> omega
      · simp only [h1, if_false, h3, h23]
        have hn5 : 5 ≤ n := by omega
        have hchar := is_prime_loop_eq_zero_iff n 5 n (by omega) (by omega)
        have hzo := is_prime_loop_eq_zero_or_one n 5 n
        constructor
        · -- loop returns 1: no small divisor exists, so n is prime
          intro hone
          have hnod : ¬ ∃ k, (5 + 6 * k) * (5 + 6 * k) ≤ n ∧
              (n % (5 + 6 * k) = 0 ∨ n % (5 + 6 * k + 2) = 0) := by
            rw [← hchar]; omega
          by_contra hnp
          apply hnod
          -- n is composite: its least prime factor p satisfies p * p ≤ n
          have hne1 : n ≠ 1 := by omega
          set p := n.minFac with hpdef
          have hp : p.Prime := Nat.minFac_prime hne1
          have hdvd : p ∣ n := Nat.minFac_dvd n
          have hmodp : n % p = 0 := by
            obtain ⟨c, hc⟩ := hdvd
            rw [hc]; exact Nat.mul_mod_right p c
          have hpp : p * p ≤ n := by
            obtain ⟨c, hc⟩ := hdvd
            have hc1 : c ≠ 1 := by
              intro hc1
              rw [hc1, Nat.mul_one] at hc
              rw [← hc] at hp
              exact hnp hp
            have hc0 : c ≠ 0 := by
              intro hc0
              rw [hc0, Nat.mul_zero] at hc
              omega
            have hcd : c ∣ n := ⟨p, by rw [hc, Nat.mul_comm]⟩
            have hpc : p ≤ c := Nat.minFac_le_of_dvd (by omega) hcd
            calc p * p ≤ p * c := Nat.mul_le_mul_left p hpc
              _ = n := hc.symm
          have hp2 : p ≠ 2 := by
            intro h2
            rw [h2] at hmodp
            omega
          have hp3 : p ≠ 3 := by
            intro h3'
            rw [h3'] at hmodp
            omega
          have hp4 : p ≠ 4 := by
            intro h4
            rw [h4] at hp
            exact absurd hp (by norm_num)
          have hp5 : 5 ≤ p := by
            have := hp.two_le
            omega
          have hpm2 : p % 2 ≠ 0 := by
            intro h
            rcases hp.eq_one_or_self_of_dvd 2 (Nat.dvd_of_mod_eq_zero h) with
              h' | h' <;> omega
          have hpm3 : p % 3 ≠ 0 := by
            intro h
            rcases hp.eq_one_or_self_of_dvd 3 (Nat.dvd_of_mod_eq_zero h) with
              h' | h' <;> omega
          have hp6 : p % 6 = 1 ∨ p % 6 = 5 := by omega
          rcases hp6 with hp6 | hp6
          · -- p = 7 + 6k, tested as probe + 2
            refine ⟨(p - 7) / 6, ?_, Or.inr ?_⟩
            · have harg : 5 + 6 * ((p - 7) / 6) = p - 2 := by omega
              rw [harg]
              calc (p - 2) * (p - 2) ≤ p * p :=
                    Nat.mul_le_mul (by omega) (by omega)
                _ ≤ n := hpp
            · have harg : 5 + 6 * ((p - 7) / 6) + 2 = p := by omega
              rw [harg]; exact hmodp
          · -- p = 5 + 6k, tested as probe
            refine ⟨(p - 5) / 6, ?_, Or.inl ?_⟩
            · have harg : 5 + 6 * ((p - 5) / 6) = p := by omega
              rw [harg]; exact hpp
            · have harg : 5 + 6 * ((p - 5) / 6) = p := by omega
              rw [harg]; exact hmodp
        · -- n prime: no probe divides it, so the loop returns 1
          intro hp
          have hnod : ¬ ∃ k, (5 + 6 * k) * (5 + 6 * k) ≤ n ∧
              (n % (5 + 6 * k) = 0 ∨ n % (5 + 6 * k + 2) = 0) := by
            rintro ⟨k, hk1, hk2⟩
            rcases hk2 with hk2 | hk2
            · have hd : (5 + 6 * k) ∣ n := Nat.dvd_of_mod_eq_zero hk2
              rcases hp.eq_one_or_self_of_dvd _ hd with h | h
              · omega
              · rw [h] at hk1
                have : 5 * n ≤ n * n := Nat.mul_le_mul (by omega) (by omega)
                omega
            · have hd : (5 + 6 * k + 2) ∣ n := Nat.dvd_of_mod_eq_zero hk2
              rcases hp.eq_one_or_self_of_dvd _ hd with h | h
              · omega
              · have harg : 5 + 6 * k = n - 2 := by omega
                rw [harg] at hk1
                have : 5 * (n - 2) ≤ (n - 2) * (n - 2) :=
                  Nat.mul_le_mul (by omega) (by omega)
                omega
          rw [← hchar] at hnod
          omega

/-- A value a lane writes to `result[0]` lies in `[i, e]` (for the lane's
starting probe `i`) and passes the kernel's primality test. -/
lemma laneLoop_result (fuel e st : Nat) :
    ∀ (i v : Nat) (ws : List Nat),
      laneLoop fuel i e st = (ws, some v) →
      i ≤ v ∧ v ≤ e ∧ is_prime v = 1 := by
  induction fuel with
  | zero =>
    intro i v ws h
    simp [laneLoop] at h
  | succ fuel ih =>
    intro i v ws h
    unfold laneLoop at h
    by_cases hie : i ≤ e
    · simp only [hie, if_true] at h
      by_cases hp : is_prime i = 1
      · simp only [hp, if_true, Prod.mk.injEq, Option.some.inj] at h
        obtain ⟨-, h2⟩ := h
        have hv : v = i := by
          cases h2; rfl
        subst hv
        exact ⟨Nat.le_refl v, hie, hp⟩
      · simp only [hp, if_false] at h
        cases hrec : laneLoop fuel (i + st) e st with
        | mk ws' r =>
          rw [hrec] at h
          simp only [Prod.mk.injEq] at h
          obtain ⟨-, h2⟩ := h
          have := ih (i + st) v ws' (by rw [hrec, h2])
          exact ⟨by omega, this.2.1, this.2.2⟩
    · simp [hie] at h

/-- A value the kernel writes to `result[0]` on the range `[s, e]` is a
genuine prime lying inside `[s, e]`. -/
lemma kernelLane_result (s e lanes tid v : Nat)
    (h : (kernelLane s e lanes tid).2 = some v) :
    Nat.Prime v ∧ s ≤ v ∧ v ≤ e := by
  cases hk : kernelLane s e lanes tid with
  | mk ws r =>
    rw [hk] at h
    simp only at h
    subst h
    have := laneLoop_result (e + 1) e lanes (s + tid) v ws hk
    exact ⟨(is_prime_eq_one_iff v).mp this.2.2, by omega, this.2.1⟩

/-! Helper lemmas about the monitor transition system. -/

/-- Running a concatenated schedule runs the two halves in sequence. -/
lemma monRun_append (env : MonEnv) (a b : List Nat) :
    ∀ s : GState, monRun env (a ++ b) s = monRun env b (monRun env a s) := by
  induction a with
  | nil => intro s; rfl
  | cons i a ih => intro s; exact ih (stepMon env s i)

/-- A single atomic action never clears the flag. -/
lemma stepMon_flag_mono (env : MonEnv) (s : GState) (i : Nat)
    (h : s.flag = true) : (stepMon env s i).flag = true := by
  unfold stepMon
  split
  · exact h
  · exact h
  · split
    · exact h
    · exact h
  · simp [h]

/-- A single atomic action either leaves the flag alone or stores `true`. -/
lemma stepMon_flag_or (env : MonEnv) (s : GState) (i : Nat) :
    (stepMon env s i).flag = s.flag ∨ (stepMon env s i).flag = true := by
  cases hm : s.mons.get? i with
  | none => left; simp only [stepMon, hm]
  | some st =>
    cases st with
    | exited o => left; simp only [stepMon, hm]
    | running ch e =>
      cases ch with
      | false =>
        simp only [stepMon, hm]
        split
        · left; rfl
        · left; rfl
      | true =>
        simp only [stepMon, hm]
        cases hb : (monBody (env i e) i e).setFlag
        · left; simp [hb]
        · right; simp [hb]

/-- No schedule ever clears the flag. -/
lemma monRun_flag_mono (env : MonEnv) (sched : List Nat) :
    ∀ s : GState, s.flag = true → (monRun env sched s).flag = true := by
  induction sched with
  | nil => intro s h; exact h
  | cons i sched ih => intro s h; exact ih _ (stepMon_flag_mono env s i h)

/-- The body of an iteration ends in a read error, a found report, a
telemetry panic, or one more loop round with `elapsed_time` incremented.
It never ends between the flag check and the body. -/
lemma monBody_state (obs : TickObs) (i e : Nat) :
    (monBody obs i e).state = MonState.exited Outcome.errored ∨
    (∃ v, (monBody obs i e).state = MonState.exited (Outcome.found v)) ∨
    (monBody obs i e).state = MonState.exited Outcome.panicked ∨
    (monBody obs i e).state = MonState.running false (e + 1) := by
  obtain ⟨st, res, tel⟩ := obs
  cases st with
  | none => left; rfl
  | some l =>
    cases res with
    | none => left; rfl
    | some v =>
      by_cases hv : v ≠ 0
      · right; left; exact ⟨v, by simp [monBody, hv]⟩
      · by_cases ht : e % 10 = 0 ∧ tel = false
        · right; right; left; simp [monBody, hv, ht]
        · right; right; right; simp [monBody, hv, ht]

/-- Every report present after an atomic action was either already present or
was just printed by a monitor that read a non-zero result value. -/
lemma stepMon_reports_mem (env : MonEnv) (s : GState) (i : Nat)
    (r : Nat × Nat) (h : r ∈ (stepMon env s i).reports) :
    r ∈ s.reports ∨
      ∃ e v, (env i e).resultRead = some v ∧ v ≠ 0 ∧ r = (i, v) := by
  cases hm : s.mons.get? i with
  | none =>
    simp only [stepMon, hm] at h
    exact Or.inl h
  | some st =>
    cases st with
    | exited o =>
      simp only [stepMon, hm] at h
      exact Or.inl h
    | running ch e =>
      cases ch with
      | false =>
        simp only [stepMon, hm] at h
        by_cases hf : s.flag
        · simp [hf] at h; exact Or.inl h
        · simp [hf] at h; exact Or.inl h
      | true =>
        simp only [stepMon, hm] at h
        cases hst : (env i e).statusRead with
        | none =>
          simp [monBody, hst] at h
          exact Or.inl h
        | some l =>
          cases hres : (env i e).resultRead with
          | none =>
            simp [monBody, hst, hres] at h
            exact Or.inl h
          | some v =>
            by_cases hv : v ≠ 0
            · simp [monBody, hst, hres, hv] at h
              rcases h with h | h
              · exact Or.inl h
              · exact Or.inr ⟨e, v, hres, hv, by rw [h]⟩
            · by_cases ht : e % 10 = 0 ∧ (env i e).telemetryOk = false
              · simp [monBody, hst, hres, hv, ht] at h
                exact Or.inl h
              · simp [monBody, hst, hres, hv, ht] at h
                exact Or.inl h

/-- Report-soundness carried along a whole run: if every non-zero result a
monitor can read satisfies `P` at that monitor, the reports do too. -/
lemma monRun_reports_mem (env : MonEnv) (P : Nat × Nat → Prop)
    (hstep : ∀ i e v, (env i e).resultRead = some v → v ≠ 0 → P (i, v)) :
    ∀ (sched : List Nat) (s : GState),
      (∀ r ∈ s.reports, P r) →
      ∀ r ∈ (monRun env sched s).reports, P r := by
  intro sched
  induction sched with
  | nil => intro s hs r hr; exact hs r hr
  | cons i sched ih =>
    intro s hs r hr
    apply ih (stepMon env s i) _ r hr
    intro r' hr'
    rcases stepMon_reports_mem env s i r' hr' with h | ⟨e, v, hres, hv, rfl⟩
    · exact hs r' h
    · exact hstep i e v hres hv

/-- In the no-result environment a single monitor just keeps looping: the
flag stays false and the monitor never reaches a terminal state. -/
lemma noResult_step (s : GState) (i : Nat)
    (hf : s.flag = false) (hm : ∃ b e, s.mons = [MonState.running b e]) :
    (stepMon noResultEnv s i).flag = false ∧
    ∃ b e, (stepMon noResultEnv s i).mons = [MonState.running b e] := by
  obtain ⟨b, e, hm⟩ := hm
  cases i with
  | zero =>
    cases b with
    | false =>
      have h0 : s.mons.get? 0 = some (MonState.running false e) := by
        rw [hm]; rfl
      simp only [stepMon, h0]
      rw [if_neg (by simp [hf])]
      exact ⟨hf, true, e, by rw [hm]; rfl⟩
    | true =>
      have h0 : s.mons.get? 0 = some (MonState.running true e) := by
        rw [hm]; rfl
      have hbody : monBody (noResultEnv 0 e) 0 e =
          ⟨MonState.running false (e + 1), false, none, false⟩ := by
        simp [monBody, noResultEnv, noResultObs]
      simp only [stepMon, h0, hbody]
      exact ⟨by simp [hf], false, e + 1, by rw [hm]; rfl⟩
  | succ j =>
    have h0 : s.mons.get? (j + 1) = none := by rw [hm]; rfl
    simp only [stepMon, h0]
    exact ⟨hf, b, e, hm⟩

/-- Run-level version of `noResult_step`. -/
lemma noResult_run (sched : List Nat) :
    ∀ s : GState,
      s.flag = false → (∃ b e, s.mons = [MonState.running b e]) →
      (monRun noResultEnv sched s).flag = false ∧
      ∃ b e, (monRun noResultEnv sched s).mons = [MonState.running b e] := by
  induction sched with
  | nil => intro s hf hm; exact ⟨hf, hm⟩
  | cons i sched ih =>
    intro s hf hm
    have h := noResult_step s i hf hm
    exact ih _ h.1 h.2

/-- The join loop of `main` panics as soon as it reaches a panicked thread,
provided every thread joined before it had exited without panicking. -/
lemma joinLoop_panicked :
    ∀ pre post : List MonState,
      (∀ m ∈ pre, ∃ o, m = MonState.exited o ∧ o ≠ Outcome.panicked) →
      joinLoop (pre ++ MonState.exited Outcome.panicked :: post) = some true := by
  intro pre
  induction pre with
  | nil => intro post _; rfl
  | cons m pre ih =>
    intro post h
    obtain ⟨o, rfl, ho⟩ := h m (by simp)
    have hrest : ∀ m' ∈ pre, ∃ o', m' = MonState.exited o' ∧ o' ≠ Outcome.panicked :=
      fun m' hm' => h m' (by simp [hm'])
    cases o with
    | found v => exact ih post hrest
    | stopped => exact ih post hrest
    | errored => exact ih post hrest
    | panicked => exact absurd rfl ho

/-! Claim theorems. -/

/-- C9: for the range-scan kernel run with start 10, end 30 and a single
lane, the lane writes its probe values to its status slot in order starting
at 10, stops at 11 (a genuine prime, while 10 fails the test), and writes 11
to `result[0]`; the status slot therefore only ever holds the values 10
and 11. -/
theorem C9_range_scan_10_30_single_lane :
    kernelLane 10 30 1 0 = ([10, 11], some 11) ∧
    is_prime 10 = 0 ∧ Nat.Prime 11 ∧ ¬ Nat.Prime 10 :=
  ⟨by decide, by decide, by norm_num, by norm_num⟩

/-- C3 counterexample: `KERNEL_SRC` exposes exactly one kernel entry point,
the range-scan kernel `search_for_large_prime`; the candidate-list entry
point the claim describes does not exist in the kernel program. -/
theorem C3_no_candidate_list_entry_point :
    kernelEntryPoints = ["search_for_large_prime"] ∧
    kernelEntryPoints.length = 1 ∧
    ∀ ep ∈ kernelEntryPoints, ep = "search_for_large_prime" := by
  refine ⟨rfl, rfl, ?_⟩
  intro ep hep
  simpa [kernelEntryPoints] using hep

/-- C3 amended: the kernel exposes only the range-scan entry point, so there
is no candidate-list mode; applying the kernel's own primality test to the
candidates 4, 6, 7, 9 nevertheless yields the verdicts 0, 0, 1, 0, and 7 is
the unique qualifying candidate (a genuine prime). -/
theorem C3_single_entry_point_and_candidate_verdicts :
    kernelEntryPoints = ["search_for_large_prime"] ∧
    List.map is_prime [4, 6, 7, 9] = [0, 0, 1, 0] ∧
    List.filter (fun c => is_prime c == 1) [4, 6, 7, 9] = [7] ∧
    Nat.Prime 7 :=
  ⟨rfl, by decide, by decide, by norm_num⟩

/-- C1: on the range 8..10 (no primes) the kernel lane exhausts the range
writing 8, 9, 10 to its status slot and never writes a result, so the result
slot stays 0; in that situation the monitor loop of `main` never reaches a
terminal state under any schedule — the loop has no range-exhaustion exit —
hence the join blocks forever and the final summary is never printed. -/
theorem C1_no_result_run_never_reaches_summary :
    kernelLane 8 10 1 0 = ([8, 9, 10], none) ∧
    ∀ sched : List Nat,
      processOutcome (monRun noResultEnv sched (initState 1)) = none := by
  refine ⟨by decide, fun sched => ?_⟩
  obtain ⟨-, b, e, hm⟩ :=
    noResult_run sched (initState 1) rfl ⟨false, 0, rfl⟩
  unfold processOutcome
  rw [hm]
  rfl

/-- C7: the TerminationFlag is monotonic: it is created false, every atomic
action either leaves it unchanged or stores true, and once a run has made it
true no continuation of the run ever makes it false again. -/
theorem C7_termination_flag_monotonic (n : Nat) (env : MonEnv)
    (sched₁ sched₂ : List Nat) :
    (initState n).flag = false ∧
    (∀ (s : GState) (i : Nat),
      (stepMon env s i).flag = s.flag ∨ (stepMon env s i).flag = true) ∧
    ((monRun env sched₁ (initState n)).flag = true →
      (monRun env (sched₁ ++ sched₂) (initState n)).flag = true) := by
  refine ⟨rfl, fun s i => stepMon_flag_or env s i, fun h => ?_⟩
  rw [monRun_append]
  exact monRun_flag_mono env sched₂ _ h

/-- C7 witness: a concrete run in which the flag becomes true after the
first monitor reports, and stays true through the rest of the schedule. -/
theorem C7_termination_flag_monotonic_witness :
    (monRun bothFindEnv ([0, 0] ++ [1, 1]) (initState 2)).flag = true :=
  (C7_termination_flag_monotonic 2 bothFindEnv [0, 0] [1, 1]).2.2 (by decide)

/-- C2 counterexample: with two monitors whose result buffers both hold 11
(a value the kernel writes on the range 10..30 with two lanes), the schedule
that lets both monitors pass the flag check before either sets the flag makes
both print a result report: two reports are emitted, not exactly one, and the
code marks neither as authoritative. -/
theorem C2_two_monitors_both_report :
    (monRun bothFindEnv [0, 1, 0, 1] (initState 2)).reports =
      [(0, 11), (1, 11)] ∧
    (monRun bothFindEnv [0, 1, 0, 1] (initState 2)).reports.length ≠ 1 ∧
    (kernelLane 10 30 2 1).2 = some 11 := by
  refine ⟨by decide, ?_, by decide⟩
  intro h
  rw [show (monRun bothFindEnv [0, 1, 0, 1] (initState 2)).reports =
    [(0, 11), (1, 11)] from by decide] at h
  simp at h

/-- C2 amended: one or more monitors may report concurrently (none is marked
authoritative), but every reported `SearchResult` value is sound: provided
each result-buffer read yields 0 or a value the kernel wrote for the declared
range, every reported value is a genuine prime inside the declared search
range. -/
theorem C2_reported_values_are_primes_in_range (env : MonEnv)
    (sched : List Nat) (n lo hi lanes : Nat)
    (henv : ∀ i t v, (env i t).resultRead = some v →
      v = 0 ∨ ∃ tid, (kernelLane lo hi lanes tid).2 = some v) :
    ∀ r ∈ (monRun env sched (initState n)).reports,
      Nat.Prime r.2 ∧ lo ≤ r.2 ∧ r.2 ≤ hi := by
  apply monRun_reports_mem
  · intro i e v hres hv
    rcases henv i e v hres with rfl | ⟨tid, hk⟩
    · exact absurd rfl hv
    · simpa using kernelLane_result lo hi lanes tid v hk
  · intro r hr
    simp [initState] at hr

/-- C2 witness: the soundness theorem applied to a concrete two-monitor run
on the range 10..30 with two lanes, where the report `(0, 11)` is emitted. -/
theorem C2_reported_values_witness : Nat.Prime 11 ∧ 10 ≤ 11 ∧ 11 ≤ 30 := by
  have h := C2_reported_values_are_primes_in_range bothFindEnv [0, 1, 0, 1]
    2 10 30 2 ?_ (0, 11) (by decide)
  · exact h
  · intro i t v hv
    have hv11 : 11 = v := by simpa [bothFindEnv] using hv
    subst hv11
    exact Or.inr ⟨1, by decide⟩

/-- C5: a monitor that reads a non-zero value `v` from its result buffer's
first slot exits its loop in the `found v` state (recording the winning
value), stores true in the TerminationFlag, and appends the result report
naming its device index. -/
theorem C5_nonzero_result_reports_and_sets_flag
    (env : MonEnv) (s : GState) (i e v : Nat) (l : List Nat)
    (hm : s.mons.get? i = some (MonState.running true e))
    (hs : (env i e).statusRead = some l)
    (hr : (env i e).resultRead = some v)
    (hv : v ≠ 0) :
    (stepMon env s i).mons.get? i = some (MonState.exited (Outcome.found v)) ∧
    (stepMon env s i).flag = true ∧
    (stepMon env s i).reports = s.reports ++ [(i, v)] := by
  have hbody : monBody (env i e) i e =
      ⟨MonState.exited (Outcome.found v), true, some (i, v), false⟩ := by
    simp [monBody, hs, hr, hv]
  obtain ⟨hlt, -⟩ := List.get?_eq_some.mp hm
  simp only [stepMon, hm, hbody]
  exact ⟨List.get?_set_eq_of_lt _ hlt, by simp, by simp⟩

/-- C5 witness: the found transition at a concrete state, with the monitor
mid-iteration and the result slot holding 11. -/
theorem C5_nonzero_result_witness :
    (stepMon bothFindEnv midBodyState 0).mons.get? 0 =
      some (MonState.exited (Outcome.found 11)) ∧
    (stepMon bothFindEnv midBodyState 0).flag = true ∧
    (stepMon bothFindEnv midBodyState 0).reports =
      midBodyState.reports ++ [(0, 11)] :=
  C5_nonzero_result_reports_and_sets_flag bothFindEnv midBodyState 0 0 11 []
    rfl rfl rfl (by decide)

/-- C6 counterexample: a tick whose result slot holds the non-zero value 11
while the TerminationFlag is already true takes the Stopped transition and
emits no report — the monitor checks the flag first (src/main.rs line 134)
and never evaluates the result buffer on that tick, contradicting the
claimed result-buffer-before-flag order. -/
theorem C6_flag_true_result_nonzero_stops :
    (bothFindEnv 0 0).resultRead = some 11 ∧
    stepMon bothFindEnv flagSetState 0 =
      ⟨true, [MonState.exited Outcome.stopped], [], []⟩ ∧
    (stepMon bothFindEnv flagSetState 0).reports = [] := by decide

/-- C6 amended: on each polling tick the monitor evaluates the
TerminationFlag first: if the flag is true at the check, the monitor stops
without reading any buffer (the step does not depend on the environment at
all), a `found` exit can only arise from a monitor that had already passed
its flag check, and the post-check phase is entered only when the flag was
false at the check. -/
theorem C6_flag_checked_before_result :
    (∀ (env env' : MonEnv) (s : GState) (i e : Nat),
      s.mons.get? i = some (MonState.running false e) → s.flag = true →
      stepMon env s i =
        { s with mons := s.mons.set i (MonState.exited Outcome.stopped) } ∧
      stepMon env s i = stepMon env' s i) ∧
    (∀ (env : MonEnv) (s : GState) (i v : Nat),
      (stepMon env s i).mons.get? i =
        some (MonState.exited (Outcome.found v)) →
      s.mons.get? i ≠ some (MonState.exited (Outcome.found v)) →
      ∃ e, s.mons.get? i = some (MonState.running true e)) ∧
    (∀ (env : MonEnv) (s : GState) (i e : Nat),
      (stepMon env s i).mons.get? i = some (MonState.running true e) →
      s.mons.get? i ≠ some (MonState.running true e) →
      s.flag = false ∧ s.mons.get? i = some (MonState.running false e)) := by
  refine ⟨?_, ?_, ?_⟩
  · intro env env' s i e hm hf
    constructor
    · simp only [stepMon, hm]
      rw [if_pos hf]
    · simp only [stepMon, hm]
  · intro env s i v h hne
    cases hm : s.mons.get? i with
    | none =>
      simp only [stepMon, hm] at h
      simp at h
    | some st =>
      cases st with
      | exited o =>
        simp only [stepMon, hm] at h
        rw [hm] at hne
        exact absurd h hne
      | running ch e =>
        cases ch with
        | true => exact ⟨e, rfl⟩
        | false =>
          obtain ⟨hlt, -⟩ := List.get?_eq_some.mp hm
          simp only [stepMon, hm] at h
          by_cases hf : s.flag = true
          · rw [if_pos hf] at h
            have h2 : (s.mons.set i (MonState.exited Outcome.stopped)).get? i =
                some (MonState.exited (Outcome.found v)) := h
            rw [List.get?_set_eq_of_lt _ hlt] at h2
            simp at h2
          · rw [if_neg hf] at h
            have h2 : (s.mons.set i (MonState.running true e)).get? i =
                some (MonState.exited (Outcome.found v)) := h
            rw [List.get?_set_eq_of_lt _ hlt] at h2
            simp at h2
  · intro env s i e h hne
    cases hm : s.mons.get? i with
    | none =>
      simp only [stepMon, hm] at h
      simp at h
    | some st =>
      cases st with
      | exited o =>
        simp only [stepMon, hm] at h
        rw [hm] at hne
        exact absurd h hne
      | running ch e' =>
        obtain ⟨hlt, -⟩ := List.get?_eq_some.mp hm
        cases ch with
        | true =>
          simp only [stepMon, hm] at h
          have h2 : (s.mons.set i (monBody (env i e') i e').state).get? i =
              some (MonState.running true e) := h
          rw [List.get?_set_eq_of_lt _ hlt] at h2
          rcases monBody_state (env i e') i e' with hb | ⟨w, hb⟩ | hb | hb <;>
            rw [hb] at h2 <;> simp at h2
        | false =>
          simp only [stepMon, hm] at h
          by_cases hf : s.flag = true
          · rw [if_pos hf] at h
            have h2 : (s.mons.set i (MonState.exited Outcome.stopped)).get? i =
                some (MonState.running true e) := h
            rw [List.get?_set_eq_of_lt _ hlt] at h2
            simp at h2
          · rw [if_neg hf] at h
            have h2 : (s.mons.set i (MonState.running true e')).get? i =
                some (MonState.running true e) := h
            rw [List.get?_set_eq_of_lt _ hlt] at h2
            have h3 := Option.some.inj h2
            cases h3
            exact ⟨by simpa using hf, rfl⟩

/-- C6 witness: the flag-first Stopped transition at a concrete state, and
its independence from the environment (the buffers are never read). -/
theorem C6_flag_checked_before_result_witness :
    stepMon noResultEnv flagSetState 0 =
      ⟨true, [MonState.exited Outcome.stopped], [], []⟩ ∧
    stepMon noResultEnv flagSetState 0 = stepMon allErrEnv flagSetState 0 := by
  have h := C6_flag_checked_before_result.1 noResultEnv allErrEnv
    flagSetState 0 0 rfl rfl
  exact ⟨h.1.trans (by decide), h.2⟩

/-- C8: a status-buffer or result-buffer read failure on a tick moves that
monitor to the Errored terminal state: it logs the read failure, exits its
loop, leaves the TerminationFlag and the report list untouched, and leaves
every sibling monitor's state unchanged. -/
theorem C8_read_error_isolates_monitor
    (env : MonEnv) (s : GState) (i e : Nat)
    (hm : s.mons.get? i = some (MonState.running true e))
    (herr : (env i e).statusRead = none ∨ (env i e).resultRead = none) :
    (stepMon env s i).mons.get? i = some (MonState.exited Outcome.errored) ∧
    (stepMon env s i).flag = s.flag ∧
    (stepMon env s i).reports = s.reports ∧
    (stepMon env s i).errlog = s.errlog ++ [i] ∧
    ∀ j, j ≠ i → (stepMon env s i).mons.get? j = s.mons.get? j := by
  have hbody : monBody (env i e) i e =
      ⟨MonState.exited Outcome.errored, false, none, true⟩ := by
    rcases herr with h | h
    · simp [monBody, h]
    · cases hst : (env i e).statusRead with
      | none => simp [monBody, hst]
      | some l => simp [monBody, hst, h]
  obtain ⟨hlt, -⟩ := List.get?_eq_some.mp hm
  simp only [stepMon, hm, hbody]
  refine ⟨List.get?_set_eq_of_lt _ hlt, by simp, by simp, by simp, ?_⟩
  intro j hj
  exact List.get?_set_ne _ _ (Ne.symm hj)

/-- C8 witness: the Errored transition at a concrete state in which the
status-buffer read fails. -/
theorem C8_read_error_witness :
    (stepMon allErrEnv midBodyState 0).mons.get? 0 =
      some (MonState.exited Outcome.errored) ∧
    (stepMon allErrEnv midBodyState 0).flag = midBodyState.flag := by
  have h := C8_read_error_isolates_monitor allErrEnv midBodyState 0 0
    rfl (Or.inl rfl)
  exact ⟨h.1, h.2.1⟩

/-- C4 counterexample: with monitor 0's telemetry query failing on its first
tick while monitor 1 is healthy, monitor 0's thread panics without setting
the flag and monitor 1 keeps polling, but the coordinator's
`t.join().unwrap()` then panics the main thread: the process outcome is the
join panic, not a normal shutdown — contradicting the claim that the rest
of the process keeps running to a normal shutdown. -/
theorem C4_telemetry_failure_aborts_run :
    (monRun telemFailEnv [0, 0, 1, 1] (initState 2)).mons.get? 0 =
      some (MonState.exited Outcome.panicked) ∧
    (monRun telemFailEnv [0, 0, 1, 1] (initState 2)).flag = false ∧
    (monRun telemFailEnv [0, 0, 1, 1] (initState 2)).mons.get? 1 =
      some (MonState.running false 1) ∧
    processOutcome (monRun telemFailEnv [0, 0, 1, 1] (initState 2)) =
      some ProcOutcome.panickedJoin := by decide

/-- C4 amended: a telemetry-query failure panics exactly the monitor it
occurs in — the flag, the reports, the error log and every sibling monitor
are untouched by that step — but when the coordinator joins a panicked
thread (after joining any earlier, non-panicked threads), the
`join().unwrap()` panics `main`, so the process aborts instead of reaching a
normal shutdown. -/
theorem C4_telemetry_failure_panics_monitor_then_join
    : (∀ (env : MonEnv) (s : GState) (i e : Nat) (l : List Nat),
      s.mons.get? i = some (MonState.running true e) →
      (env i e).statusRead = some l →
      (env i e).resultRead = some 0 →
      (env i e).telemetryOk = false →
      e % 10 = 0 →
      (stepMon env s i).mons.get? i = some (MonState.exited Outcome.panicked) ∧
      (stepMon env s i).flag = s.flag ∧
      (stepMon env s i).reports = s.reports ∧
      (stepMon env s i).errlog = s.errlog ∧
      ∀ j, j ≠ i → (stepMon env s i).mons.get? j = s.mons.get? j) ∧
    (∀ (f : Bool) (pre post : List MonState) (rep : List (Nat × Nat))
        (el : List Nat),
      (∀ m ∈ pre, ∃ o, m = MonState.exited o ∧ o ≠ Outcome.panicked) →
      processOutcome ⟨f, pre ++ MonState.exited Outcome.panicked :: post,
          rep, el⟩ =
        some ProcOutcome.panickedJoin) := by
  constructor
  · intro env s i e l hm hs hr htel h10
    have hbody : monBody (env i e) i e =
        ⟨MonState.exited Outcome.panicked, false, none, false⟩ := by
      simp [monBody, hs, hr, h10, htel]
    obtain ⟨hlt, -⟩ := List.get?_eq_some.mp hm
    simp only [stepMon, hm, hbody]
    refine ⟨List.get?_set_eq_of_lt _ hlt, by simp, by simp, by simp, ?_⟩
    intro j hj
    exact List.get?_set_ne _ _ (Ne.symm hj)
  · intro f pre post rep el h
    unfold processOutcome
    rw [joinLoop_panicked pre post h]

/-- C4 witness: the panic transition at a concrete state and the join panic
on a concrete final state. -/
theorem C4_telemetry_failure_witness :
    (stepMon telemFailEnv midBodyState 0).mons.get? 0 =
      some (MonState.exited Outcome.panicked) ∧
    processOutcome ⟨false, [MonState.exited Outcome.panicked], [], []⟩ =
      some ProcOutcome.panickedJoin := by
  constructor
  · exact (C4_telemetry_failure_panics_monitor_then_join.1 telemFailEnv
      midBodyState 0 0 [] rfl rfl rfl rfl rfl).1
  · exact C4_telemetry_failure_panics_monitor_then_join.2 false [] [] [] []
      (by simp)

/-- C10 counterexample: a run in which both monitors exit through read
errors ends with the summary printed (`finished true`), while the genuine
no-result run is still polling after the same number of scheduling steps and
yields no summary — the two runs are not observably the same, because the
genuine no-result run never terminates. -/
theorem C10_error_run_prints_summary_but_no_result_run_does_not :
    processOutcome (monRun allErrEnv [0, 1, 0, 1] (initState 2)) =
      some (ProcOutcome.finished true) ∧
    processOutcome (monRun noResultEnv [0, 0, 0, 0] (initState 1)) = none ∧
    (monRun noResultEnv [0, 0, 0, 0] (initState 1)).mons =
      [MonState.running false 2] := by decide

/-- C10 amended: the summary `No prime found in the range.` is printed
exactly when every monitor thread has exited, none panicked, and the
TerminationFlag is false; a run in which every monitor exits via a read
error satisfies this and prints the summary, while a genuine no-result run
never prints it because its monitor never exits under any schedule. -/
theorem C10_summary_iff_flag_false_and_joins_ok :
    (∀ s : GState,
      processOutcome s = some (ProcOutcome.finished true) ↔
        joinLoop s.mons = some false ∧ s.flag = false) ∧
    processOutcome (monRun allErrEnv [0, 1, 0, 1] (initState 2)) =
      some (ProcOutcome.finished true) ∧
    ∀ sched : List Nat,
      processOutcome (monRun noResultEnv sched (initState 1)) = none := by
  refine ⟨?_, by decide, ?_⟩
  · intro s
    unfold processOutcome
    cases hj : joinLoop s.mons with
    | none => simp
    | some b =>
      cases b with
      | false => cases hfl : s.flag <;> simp [hfl]
      | true => simp
  · intro sched
    obtain ⟨-, b, e, hm⟩ :=
      noResult_run sched (initState 1) rfl ⟨false, 0, rfl⟩
    unfold processOutcome
    rw [hm]
    rfl

/-- C10 witness: the summary criterion applied to a concrete final state in
which the single monitor exited through a read error and the flag is
false. -/
theorem C10_summary_witness :
    processOutcome ⟨false, [MonState.exited Outcome.errored], [], [0]⟩ =
      some (ProcOutcome.finished true) :=
  (C10_summary_iff_flag_false_and_joins_ok.1 _).mpr ⟨rfl, rfl⟩

end OCLPrimes
